import Mathlib

/-!
Verification of the kernel tuner core (`kernel_tuner.py`).

Shallow embedding of the simple CUDA kernel tuner.  Strings are modelled as
`List Char`; Python's `str.replace` is modelled by `pyReplace`; the per-iteration
parameter dictionary (`params`) is an association list in insertion order; the
driver loop of `tune_kernel` is modelled as explicit recursion threading the
mutable local variables of the source (`kernel_string`, the device memory and
the launch trace).

Where the repository ships only the tests of a component (the restriction
filtering, skip-on-failure driver of `kernel_tuner.interface` exercised by
`test/test_interface.py` is absent from the sources), the component is
modelled from the spec; those definitions say so in their doc comment.
-/

namespace KernelTuner

/-- Strings of the embedded program. -/
abbrev Str := List Char

/-- Fuel-driven worker for `pyReplace`.  One unit of fuel is spent per scan
position; a match consumes the whole pattern and scanning resumes after the
inserted replacement (Python's leftmost, non-overlapping semantics). -/
def replaceFuel (pat repl : Str) : Nat → Str → Str
  | 0, s => s
  | _ + 1, [] => []
  | fuel + 1, c :: rest =>
    if pat.isPrefixOf (c :: rest) ∧ pat ≠ [] then
      repl ++ replaceFuel pat repl fuel ((c :: rest).drop pat.length)
    else
      c :: replaceFuel pat repl fuel rest

/-- Python's `s.replace(pat, repl)`: replace every leftmost non-overlapping
occurrence of `pat` in `s` by `repl`.  The empty pattern never arises in the
tuner (parameter and kernel names are non-empty identifiers). -/
def pyReplace (s pat repl : Str) : Str :=
  if pat = [] then s else replaceFuel pat repl s.length s

/-- Python's `str(v)` for a natural number. -/
def natStr (n : Nat) : Str := (Nat.repr n).data

/-- One configuration: the `params` dict built at line 101 of
`kernel_tuner.py` (`dict(zip(tune_params.keys(), element))`), kept in
insertion order. -/
abbrev Params := List (Str × Nat)

/-- Dict lookup `params.get(k)`: first binding of `k`, if any. -/
def Params.get? (p : Params) (k : Str) : Option Nat :=
  (p.find? (fun kv => kv.1 = k)).map (fun kv => kv.2)

/-- Dict lookup with default, `params.get(k, d)`. -/
def Params.getD (p : Params) (k : Str) (d : Nat) : Nat :=
  (Params.get? p k).getD d

/-- Key of the thread-block x dimension. -/
def bsxKey : Str := ("block_size_x").data

/-- Key of the thread-block y dimension. -/
def bsyKey : Str := ("block_size_y").data

/-- Key of the thread-block z dimension. -/
def bszKey : Str := ("block_size_z").data

/-- Lines 103-109 of `kernel_tuner.py`: the launch block dimensions
(`threads`), with defaults 256, 1, 1 for the x, y, z axes. -/
def threadsOf (p : Params) : Nat × Nat × Nat :=
  (Params.getD p bsxKey 256, Params.getD p bsyKey 1, Params.getD p bszKey 1)

/-- Exact value of `int(numpy.ceil(float(a) / float(b)))` for naturals
(the float round trip is modelled as exact real arithmetic). -/
def ceilDiv (a b : Nat) : Nat := (a + b - 1) / b

/-- Product `numpy.prod([params[i] for i in names])`: `none` models the `KeyError`
raised when a divisor name is not among the parameters. -/
def prodParams (p : Params) (names : List Str) : Option Nat :=
  (names.mapM (Params.get? p)).map (fun vs => vs.foldl (fun a b => a * b) 1)

/-- Lines 111-113 of `kernel_tuner.py`: `div_y = 1` unless a `grid_div_y`
list was passed, in which case it is the product of the named parameters. -/
def divYOf (p : Params) (grid_div_y : Option (List Str)) : Option Nat :=
  match grid_div_y with
  | none => pure 1
  | some names => prodParams p names

/-- Lines 110-115 of `kernel_tuner.py`: the grid dimensions.  `none` models a
raised exception: `KeyError` on a missing divisor name, `IndexError` on a
problem-size tuple shorter than 2, `ZeroDivisionError` on a zero divisor. -/
def gridOf (problem_size : List Nat) (p : Params) (grid_div_x : List Str)
    (grid_div_y : Option (List Str)) : Option (Nat × Nat) := do
  let dx ← prodParams p grid_div_x
  let dy ← divYOf p grid_div_y
  let p0 ← problem_size.get? 0
  let p1 ← problem_size.get? 1
  if dx = 0 ∨ dy = 0 then none
  else pure (ceilDiv p0 dx, ceilDiv p1 dy)

/-! ## Kernel specialization (lines 117-124 of `kernel_tuner.py`) -/

/-- Lines 118-120: `kernel_string = original_kernel` followed by
`kernel_string = kernel_string.replace(k, str(v))` for every `(k, v)` in
`params`, in dict order. -/
def substParams (original : Str) (p : Params) : Str :=
  p.foldl (fun s kv => pyReplace s kv.1 (natStr kv.2)) original

/-- Python's `"_".join(parts)`. -/
def joinUnderscore : List Str → Str
  | [] => []
  | [x] => x
  | x :: y :: rest => x ++ '_' :: joinUnderscore (y :: rest)

/-- Line 123: `name = kernel_name + "_" + "_".join([str(i) for i in
params.values()])`. -/
def mkName (kernel_name : Str) (p : Params) : Str :=
  kernel_name ++ '_' :: joinUnderscore (p.map (fun kv => natStr kv.2))

/-- Lines 118-124 as one pure function of the original source, the kernel
name and the configuration: substitute every parameter, then rename the
kernel by the naive `str.replace` of line 124. -/
def specializedOf (original kernel_name : Str) (p : Params) : Str :=
  pyReplace (substParams original p) kernel_name (mkName kernel_name p)

/-! ## Parameter-space expansion (lines 99-101 of `kernel_tuner.py`) -/

/-- The tunable parameters: `tune_params`, a dict from name to candidate
list, in insertion order. -/
abbrev TuneParams := List (Str × List Nat)

/-- Cartesian product `itertools.product(*lists)`: all tuples taking one element of each list,
first coordinate varying slowest. -/
def pyProduct : List (List Nat) → List (List Nat)
  | [] => [[]]
  | vs :: rest => vs.flatMap (fun v => (pyProduct rest).map (fun e => v :: e))

/-- Lines 100-101: the enumerated configurations
`dict(zip(tune_params.keys(), element))` for every `element` of the
cartesian product. -/
def expand (tp : TuneParams) : List Params :=
  (pyProduct (tp.map (fun kv => kv.2))).map
    (fun element => (tp.map (fun kv => kv.1)).zip element)

/-! ## Argument preparation (lines 89-97 of `kernel_tuner.py`) -/

/-- A host-side kernel argument: a numpy array (it has an `nbytes`
attribute; we record its contents) or any other object (a scalar). -/
inductive HostArg where
  | array (data : List Nat)
  | scalar (v : Int)
deriving DecidableEq

/-- What ends up in `gpu_args`: a device allocation handle (from
`drv.mem_alloc`) or the untouched original argument. -/
inductive GpuArg where
  | devicePtr (addr : Nat)
  | scalar (v : Int)
deriving DecidableEq

/-- Is the argument a numpy array (has `nbytes`)? -/
def HostArg.isArray : HostArg → Bool
  | .array _ => true
  | .scalar _ => false

/-- Lines 90-97, with the device memory modelled as the list of allocations
in order (`drv.mem_alloc` returns the next fresh address, `memcpy_htod`
fills it): builds `gpu_args` and the device memory. -/
def prepareAux : List HostArg → List GpuArg → List (List Nat) →
    List GpuArg × List (List Nat)
  | [], gpu_args, mem => (gpu_args, mem)
  | .array data :: rest, gpu_args, mem =>
      prepareAux rest (gpu_args ++ [GpuArg.devicePtr mem.length]) (mem ++ [data])
  | .scalar v :: rest, gpu_args, mem =>
      prepareAux rest (gpu_args ++ [GpuArg.scalar v]) mem

/-- The `gpu_args` list and device memory after the loop of lines 90-97. -/
def prepare (arguments : List HostArg) : List GpuArg × List (List Nat) :=
  prepareAux arguments [] []

/-! ## The tuning loop of `tune_kernel` (lines 99-145) -/

/-- Everything one loop iteration hands to the device: the compiled source
and kernel name (line 127-129) and the launch of line 137. -/
structure IterRec where
  params : Params
  source : Str
  name : Str
  args : List GpuArg
  threads : Nat × Nat × Nat
  grid : Nat × Nat
deriving DecidableEq

/-- One iteration of the loop body (lines 103-137) for configuration `p`.
`ks` is the value the `kernel_string` variable holds on entry (line 118
overwrites it with `original`).  `none` models an exception escaping the
body (there is no try/except in `tune_kernel`). -/
def oldIter (gpu_args : List GpuArg) (problem_size : List Nat)
    (grid_div_x : List Str) (grid_div_y : Option (List Str))
    (original kernel_name : Str) (ks : Str) (p : Params) :
    Option (Str × IterRec) := do
  let threads := threadsOf p
  let grid ← gridOf problem_size p grid_div_x grid_div_y
  let ks1 := original
  let ks2 := substParams ks1 p
  let name := mkName kernel_name p
  let ks3 := pyReplace ks2 kernel_name name
  pure (ks3, { params := p, source := ks3, name := name, args := gpu_args,
               threads := threads, grid := grid })

/-- The loop of lines 100-145, threading the `kernel_string` variable
across iterations and collecting the per-iteration records in order. -/
def oldLoop (gpu_args : List GpuArg) (problem_size : List Nat)
    (grid_div_x : List Str) (grid_div_y : Option (List Str))
    (original kernel_name : Str) : Str → List Params →
    Option (Str × List IterRec)
  | ks, [] => some (ks, [])
  | ks, p :: rest => do
    let (ks1, r) ← oldIter gpu_args problem_size grid_div_x grid_div_y
        original kernel_name ks p
    let (ks2, rs) ← oldLoop gpu_args problem_size grid_div_x grid_div_y
        original kernel_name ks1 rest
    pure (ks2, r :: rs)

/-- The function `tune_kernel` of `kernel_tuner.py` (its observable device interactions):
prepare the arguments once, then run the loop over the expanded parameter
space.  On success, returns the iteration records, the `gpu_args` list and
the final device memory. -/
def oldTuneKernel (kernel_name original : Str) (problem_size : List Nat)
    (arguments : List HostArg) (tp : TuneParams) (grid_div_x : List Str)
    (grid_div_y : Option (List Str)) :
    Option (List IterRec × List GpuArg × List (List Nat)) := do
  let (gpu_args, mem) := prepare arguments
  let (_, recs) ← oldLoop gpu_args problem_size grid_div_x grid_div_y
      original kernel_name original (expand tp)
  pure (recs, gpu_args, mem)

/-! ## The failure-tolerant tuning driver

Modelled from the spec: the restriction filtering and skip-on-failure
driver (`kernel_tuner.interface.tune_kernel`) is exercised by
`test/test_interface.py` but its implementation is not among the sources;
the definitions below follow spec sections 4.1 and 4.6. -/

/-- Modelled from the spec: a restriction is a boolean predicate over a
configuration (spec section 3, "Restriction"). -/
abbrev Restriction := Params → Bool

/-- Modelled from the spec: the device backend capability (spec section
4.4): `compile(name, source)` yields a kernel handle or a `CompileError`
with diagnostic text; `benchmark` launches with the given geometry and
yields the elapsed time or a `LaunchError`. -/
structure Backend where
  compile : Str → Str → Except Str Nat
  benchmark : Nat → Nat × Nat × Nat → Nat × Nat → Except Str Nat

/-- Modelled from the spec: a benchmark result is the configuration, the
measured time and the compiled kernel name (spec section 3,
"BenchmarkResult"). -/
structure BenchmarkResult where
  config : Params
  time : Nat
  name : Str
deriving DecidableEq

/-- Everything the driver needs besides the configuration list. -/
structure DriverCtx where
  backend : Backend
  kernel_name : Str
  original : Str
  problem_size : List Nat
  grid_div_x : List Str
  grid_div_y : Option (List Str)

/-- Modelled from the spec: whether a configuration makes it all the way to
a benchmark result — geometry computes, the backend compiles the
specialized source, and the benchmark launch succeeds (spec section 4.6,
states `Pending → Specialized → Compiled → Benchmarked`). -/
def succeedsB (ctx : DriverCtx) (c : Params) : Bool :=
  match gridOf ctx.problem_size c ctx.grid_div_x ctx.grid_div_y with
  | none => false
  | some grid =>
    match ctx.backend.compile (mkName ctx.kernel_name c)
        (specializedOf ctx.original ctx.kernel_name c) with
    | .error _ => false
    | .ok h =>
      match ctx.backend.benchmark h (threadsOf c) grid with
      | .error _ => false
      | .ok _ => true

/-- Whether the geometry of a configuration computes (a configuration is
handed to the backend's compiler exactly when it does). -/
def geomOkB (ctx : DriverCtx) (c : Params) : Bool :=
  (gridOf ctx.problem_size c ctx.grid_div_x ctx.grid_div_y).isSome

/-- Whether the backend's compile step itself rejects the configuration
(geometry computed, compile returned a `CompileError`). -/
def compileFailsB (ctx : DriverCtx) (c : Params) : Bool :=
  match gridOf ctx.problem_size c ctx.grid_div_x ctx.grid_div_y with
  | none => false
  | some _ =>
    match ctx.backend.compile (mkName ctx.kernel_name c)
        (specializedOf ctx.original ctx.kernel_name c) with
    | .error _ => true
    | .ok _ => false

/-- The measured time of a successful configuration. -/
def timeOf (ctx : DriverCtx) (c : Params) : Nat :=
  match gridOf ctx.problem_size c ctx.grid_div_x ctx.grid_div_y with
  | none => 0
  | some grid =>
    match ctx.backend.compile (mkName ctx.kernel_name c)
        (specializedOf ctx.original ctx.kernel_name c) with
    | .error _ => 0
    | .ok h =>
      match ctx.backend.benchmark h (threadsOf c) grid with
      | .error _ => 0
      | .ok t => t

/-- The benchmark result recorded for a successful configuration. -/
def resultOf (ctx : DriverCtx) (c : Params) : BenchmarkResult :=
  { config := c, time := timeOf ctx c, name := mkName ctx.kernel_name c }

/-- Modelled from the spec: the per-configuration loop of the driver (spec
section 4.6): specialize and compute geometry, compile — on `CompileError`
record a skip and continue — then benchmark — on `LaunchError` record a
skip and continue — and on success append the `BenchmarkResult`.  Returns
the report and, as a trace, the list of configurations handed to the
backend's compiler, both in enumeration order. -/
def runConfigs (ctx : DriverCtx) : List Params →
    List BenchmarkResult × List Params
  | [] => ([], [])
  | c :: rest =>
    let (report, calls) := runConfigs ctx rest
    match gridOf ctx.problem_size c ctx.grid_div_x ctx.grid_div_y with
    | none => (report, calls)
    | some grid =>
      match ctx.backend.compile (mkName ctx.kernel_name c)
          (specializedOf ctx.original ctx.kernel_name c) with
      | .error _ => (report, c :: calls)
      | .ok h =>
        match ctx.backend.benchmark h (threadsOf c) grid with
        | .error _ => (report, c :: calls)
        | .ok t =>
          ({ config := c, time := t, name := mkName ctx.kernel_name c }
              :: report, c :: calls)

/-- Modelled from the spec: expansion followed by restriction filtering
(spec section 4.1): a configuration is valid when every restriction
evaluates true. -/
def validConfigs (tp : TuneParams) (restrictions : List Restriction) :
    List Params :=
  (expand tp).filter (fun c => restrictions.all (fun r => r c))

/-- Modelled from the spec: the whole driver — expand, filter, then the
skip-tolerant loop.  First component: the `TuningReport`; second: the
configurations that reached the backend's compiler. -/
def tuneDriver (ctx : DriverCtx) (tp : TuneParams)
    (restrictions : List Restriction) : List BenchmarkResult × List Params :=
  runConfigs ctx (validConfigs tp restrictions)

/-! ## Helper lemmas -/

/-- Division `ceilDiv` is the integer ceiling of the exact division. -/
theorem ceilDiv_eq_ceil (a b : Nat) (hb : 0 < b) :
    (ceilDiv a b : ℤ) = ⌈(a : ℚ) / (b : ℚ)⌉ := by
  have hbq : (0 : ℚ) < (b : ℚ) := by exact_mod_cast hb
  have h1 : ceilDiv a b * b ≤ a + b - 1 := Nat.div_mul_le_self _ _
  have h2 : a + b - 1 < ceilDiv a b * b + b := by
    have h := (Nat.div_lt_iff_lt_mul hb).mp (Nat.lt_succ_self (ceilDiv a b))
    rw [Nat.succ_mul] at h
    exact h
  have h1' : a ≤ ceilDiv a b * b := by omega
  have h2' : ceilDiv a b * b < a + b := by omega
  have h1q : (a : ℚ) ≤ (ceilDiv a b : ℚ) * (b : ℚ) := by exact_mod_cast h1'
  have h2q : (ceilDiv a b : ℚ) * (b : ℚ) < (a : ℚ) + (b : ℚ) := by
    exact_mod_cast h2'
  rw [eq_comm, Int.ceil_eq_iff]
  constructor
  · push_cast
    rw [sub_lt_iff_lt_add, div_add' _ _ _ (ne_of_gt hbq), lt_div_iff₀ hbq]
    nlinarith [h2q]
  · push_cast
    rw [div_le_iff₀ hbq]
    exact h1q

/-! ## Claim theorems -/

/-- C1: the claim requires that specializing the source replaces only
whole-token occurrences of each parameter name and leaves every other
identifier unchanged.  The code (lines 117-124 of `kernel_tuner.py`) uses
naive `str.replace`: specializing `__global__ void dummy(int
block_size_xy)` with `block_size_x = 128` corrupts the unrelated
identifier `block_size_xy` into `128y`, contradicting the claim (and its
own spec, which calls this a bug to be fixed). -/
theorem C1_naive_replace_corrupts_identifier :
    specializedOf (("__global__ void dummy(int block_size_xy)").data)
      (("dummy").data) [(bsxKey, 128)]
      = ("__global__ void dummy_128(int 128y)").data := by decide

/-- C3: the grid dimension on each axis is the integer ceiling of the
problem size over the product of that axis's divisor-parameter values;
the product over an empty (`grid_div_x = []`) or absent
(`grid_div_y = None`) divisor list is 1. -/
theorem C3_grid_is_ceiling_of_divided_size (problem_size : List Nat)
    (p : Params) (gdx : List Str) (gdy : Option (List Str))
    (p0 p1 dx dy : Nat)
    (h0 : problem_size.get? 0 = some p0) (h1 : problem_size.get? 1 = some p1)
    (hdx : prodParams p gdx = some dx) (hdy : divYOf p gdy = some dy)
    (hdx0 : 0 < dx) (hdy0 : 0 < dy) :
    gridOf problem_size p gdx gdy = some (ceilDiv p0 dx, ceilDiv p1 dy) ∧
    (ceilDiv p0 dx : ℤ) = ⌈(p0 : ℚ) / (dx : ℚ)⌉ ∧
    (ceilDiv p1 dy : ℤ) = ⌈(p1 : ℚ) / (dy : ℚ)⌉ ∧
    prodParams p [] = some 1 ∧ divYOf p none = some 1 := by
  refine ⟨?_, ceilDiv_eq_ceil p0 dx hdx0, ceilDiv_eq_ceil p1 dy hdy0,
    rfl, rfl⟩
  have hne : ¬(dx = 0 ∨ dy = 0) := by omega
  have h0' : problem_size[0]? = some p0 := by
    simpa [List.get?_eq_getElem?] using h0
  have h1' : problem_size[1]? = some p1 := by
    simpa [List.get?_eq_getElem?] using h1
  simp [gridOf, hdx, hdy, h0', h1', hne]

/-- Witness for C3 at the spec's example: problem size `(1280, 1)` with
`grid_div_x = ["block_size_x"]` and `block_size_x = 128` gives grid
`(10, 1)` and thread block `(128, 1, 1)`. -/
theorem C3_witness :
    gridOf [1280, 1] [(bsxKey, 128)] [bsxKey] none = some (10, 1) ∧
    threadsOf [(bsxKey, 128)] = (128, 1, 1) := by
  constructor
  · have h := (C3_grid_is_ceiling_of_divided_size [1280, 1] [(bsxKey, 128)]
      [bsxKey] none 1280 1 128 1 (by decide) (by decide) (by decide)
      (by decide) (by decide) (by decide)).1
    rw [h]
    decide
  · decide

/-- C5 counterexample: the claim says a configuration setting none of
`block_size_x`, `block_size_y`, `block_size_z` yields block dimensions
`(1, 1, 1)`; the code (line 104 of `kernel_tuner.py`) defaults the x axis
to 256, so the empty configuration yields `(256, 1, 1)`. -/
theorem C5_counterexample : ¬ threadsOf [] = (1, 1, 1) := by decide

/-- C5 amended: per axis, a configuration that sets no corresponding
block-size parameter gets that axis's default — 1 for the y and z axes,
but 256 for the x axis — independently of what the other axes set; in
particular a configuration setting none of the three yields block
dimensions `(256, 1, 1)`. -/
theorem C5_block_dims_per_axis_defaults (p : Params) :
    (Params.get? p bsxKey = none → (threadsOf p).1 = 256) ∧
    (Params.get? p bsyKey = none → (threadsOf p).2.1 = 1) ∧
    (Params.get? p bszKey = none → (threadsOf p).2.2 = 1) ∧
    (Params.get? p bsxKey = none → Params.get? p bsyKey = none →
      Params.get? p bszKey = none → threadsOf p = (256, 1, 1)) := by
  refine ⟨fun hx => ?_, fun hy => ?_, fun hz => ?_, fun hx hy hz => ?_⟩ <;>
    simp [threadsOf, Params.getD, *]

/-- Witness for the amended C5: the repository's own example configuration
sets only `block_size_x`, and the y and z axes still default to 1; a
configuration setting none of the three gets `(256, 1, 1)`. -/
theorem C5_witness :
    (threadsOf [(bsxKey, 128)]).2.1 = 1 ∧
    (threadsOf [(bsxKey, 128)]).2.2 = 1 ∧
    threadsOf [((("tile_size").data), 7)] = (256, 1, 1) :=
  ⟨(C5_block_dims_per_axis_defaults [(bsxKey, 128)]).2.1 (by decide),
   (C5_block_dims_per_axis_defaults [(bsxKey, 128)]).2.2.1 (by decide),
   (C5_block_dims_per_axis_defaults [((("tile_size").data), 7)]).2.2.2
     (by decide) (by decide) (by decide)⟩

/-- C8 counterexample: the claim says the geometry computation succeeds for
every 1-component problem size; the code (lines 114-115 of
`kernel_tuner.py`) reads `problem_size[1]` unconditionally, so the
1-component problem size `(1280,)` fails with an out-of-range access. -/
theorem C8_counterexample :
    gridOf [1280] [(bsxKey, 128)] [bsxKey] none = none := by decide

/-- C8 amended: with every divisor parameter present and positive, the
geometry computation succeeds exactly when the problem size has at least
two extents — the code reads axes 0 and 1 unconditionally, so 1-component
problem sizes fail with an out-of-range access (and any extent beyond the
second is ignored). -/
theorem C8_geometry_needs_two_extents (problem_size : List Nat) (p : Params)
    (gdx : List Str) (gdy : Option (List Str)) (dx dy : Nat)
    (hdx : prodParams p gdx = some dx) (hdy : divYOf p gdy = some dy)
    (hdx0 : 0 < dx) (hdy0 : 0 < dy) :
    (gridOf problem_size p gdx gdy).isSome ↔ 2 ≤ problem_size.length := by
  have hne : ¬(dx = 0 ∨ dy = 0) := by omega
  match problem_size with
  | [] => simp [gridOf, hdx, hdy]
  | [a] => simp [gridOf, hdx, hdy]
  | a :: b :: rest => simp [gridOf, hdx, hdy, hne]

/-- Witness for the amended C8: a 2-extent problem size succeeds, a
1-extent one has fewer than two extents. -/
theorem C8_witness :
    (gridOf [1280, 1] [(bsxKey, 128)] [bsxKey] none).isSome ∧
    ¬ 2 ≤ ([1280] : List Nat).length :=
  ⟨(C8_geometry_needs_two_extents [1280, 1] [(bsxKey, 128)] [bsxKey] none
      128 1 (by decide) (by decide) (by decide) (by decide)).mpr (by decide),
    by decide⟩

/-! ## C6: cartesian-product expansion -/

/-- The length of `itertools.product` output is the product of the input
lengths. -/
theorem pyProduct_length (ls : List (List Nat)) :
    (pyProduct ls).length = (ls.map List.length).prod := by
  induction ls with
  | nil => simp [pyProduct]
  | cons vs rest ih =>
    simp only [pyProduct, List.length_flatMap, List.map_map]
    simp only [Function.comp_def, List.length_map, ih]
    rw [List.map_const', List.sum_replicate, smul_eq_mul, List.map_cons,
      List.prod_cons]

/-- Every tuple of `itertools.product` picks one element of each list. -/
theorem pyProduct_mem (ls : List (List Nat)) (e : List Nat)
    (he : e ∈ pyProduct ls) : List.Forall₂ (fun x l => x ∈ l) e ls := by
  induction ls generalizing e with
  | nil =>
    simp [pyProduct] at he
    subst he
    exact List.Forall₂.nil
  | cons vs rest ih =>
    simp only [pyProduct, List.mem_flatMap, List.mem_map] at he
    obtain ⟨v, hv, e', he', rfl⟩ := he
    exact List.Forall₂.cons hv (ih e' he')

/-- With duplicate-free candidate lists, `itertools.product` yields
pairwise distinct tuples. -/
theorem pyProduct_nodup (ls : List (List Nat))
    (h : ∀ l ∈ ls, l.Nodup) : (pyProduct ls).Nodup := by
  induction ls with
  | nil => simp [pyProduct]
  | cons vs rest ih =>
    have hvs : vs.Nodup := h vs (by simp)
    have hrest : (pyProduct rest).Nodup := ih (fun l hl => h l (by simp [hl]))
    rw [pyProduct, List.nodup_flatMap]
    refine ⟨fun v _ => hrest.map (fun a b hab => by injection hab), ?_⟩
    refine hvs.imp ?_
    intro a b hab
    intro x hxa hxb
    simp only [List.mem_map] at hxa hxb
    obtain ⟨ea, _, rfl⟩ := hxa
    obtain ⟨eb, _, h2⟩ := hxb
    exact hab (by injection h2 with h3 _; exact h3.symm)

/-- Zipping a fixed key list is injective on value lists of full length. -/
theorem zip_right_injective (names : List Str) :
    ∀ (e1 e2 : List Nat), e1.length = names.length →
      e2.length = names.length → names.zip e1 = names.zip e2 → e1 = e2 := by
  induction names with
  | nil =>
    intro e1 e2 h1 h2 _
    cases e1 <;> cases e2 <;> simp_all
  | cons n rest ih =>
    intro e1 e2 h1 h2 hz
    cases e1 with
    | nil => simp at h1
    | cons a e1' =>
      cases e2 with
      | nil => simp at h2
      | cons b e2' =>
        simp only [List.zip_cons_cons, List.cons.injEq, Prod.mk.injEq,
          true_and] at hz
        simp only [List.length_cons, Nat.add_right_cancel_iff] at h1 h2
        exact by rw [hz.1, ih e1' e2' h1 h2 hz.2]

/-- Zipping the key list with a tuple of the product gives one binding per
parameter, in order, each to one of that parameter's candidates. -/
theorem zip_forall_binding (tp : TuneParams) :
    ∀ (e : List Nat), List.Forall₂ (fun x l => x ∈ l) e (tp.map Prod.snd) →
      List.Forall₂ (fun b kv => b.1 = kv.1 ∧ b.2 ∈ kv.2)
        ((tp.map Prod.fst).zip e) tp := by
  induction tp with
  | nil =>
    intro e he
    cases he
    exact List.Forall₂.nil
  | cons kv rest ih =>
    intro e he
    cases he with
    | cons hx hrest => exact List.Forall₂.cons ⟨rfl, hx⟩ (ih _ hrest)

/-- C6: with duplicate-free candidate lists, the expansion of
`tune_params` (lines 99-101 of `kernel_tuner.py`) enumerates exactly
`k1 × … × kn` pairwise distinct configurations, each binding every
parameter name, in order, to exactly one of that parameter's candidate
values. -/
theorem C6_expand_is_full_cartesian_product (tp : TuneParams)
    (h : ∀ kv ∈ tp, kv.2.Nodup) :
    (expand tp).length = (tp.map (fun kv => kv.2.length)).prod ∧
    (expand tp).Nodup ∧
    ∀ cfg ∈ expand tp,
      List.Forall₂ (fun b kv => b.1 = kv.1 ∧ b.2 ∈ kv.2) cfg tp := by
  refine ⟨?_, ?_, ?_⟩
  · rw [expand, List.length_map, pyProduct_length, List.map_map]
    rfl
  · rw [expand]
    refine List.Nodup.map_on ?_ (pyProduct_nodup _ ?_)
    · intro e1 h1 e2 h2 heq
      have l1 : e1.length = (tp.map Prod.fst).length := by
        rw [List.length_map, ← List.length_map tp Prod.snd]
        exact (pyProduct_mem _ _ h1).length_eq
      have l2 : e2.length = (tp.map Prod.fst).length := by
        rw [List.length_map, ← List.length_map tp Prod.snd]
        exact (pyProduct_mem _ _ h2).length_eq
      exact zip_right_injective _ e1 e2 l1 l2 heq
    · intro l hl
      simp only [List.mem_map] at hl
      obtain ⟨kv, hkv, rfl⟩ := hl
      exact h kv hkv
  · intro cfg hcfg
    rw [expand, List.mem_map] at hcfg
    obtain ⟨e, he, rfl⟩ := hcfg
    exact zip_forall_binding tp e (pyProduct_mem _ _ he)

/-- Witness for C6: two parameters with two and one candidates give
exactly two configurations. -/
theorem C6_witness :
    (expand [(bsxKey, [128, 256]), (bsyKey, [2])]).length = 2 := by
  have h := (C6_expand_is_full_cartesian_product
    [(bsxKey, [128, 256]), (bsyKey, [2])] (by decide)).1
  simpa using h

/-! ## C9 and C10: the loop of `tune_kernel` -/

/-- One loop iteration neither reads the incoming `kernel_string` (line 118
overwrites it) nor depends on anything but its own configuration. -/
theorem oldIter_eq (gpu_args : List GpuArg) (problem_size : List Nat)
    (gdx : List Str) (gdy : Option (List Str)) (original kernel_name : Str)
    (ks : Str) (p : Params) :
    oldIter gpu_args problem_size gdx gdy original kernel_name ks p
      = (gridOf problem_size p gdx gdy).map (fun grid =>
          (specializedOf original kernel_name p,
           { params := p, source := specializedOf original kernel_name p,
             name := mkName kernel_name p, args := gpu_args,
             threads := threadsOf p, grid := grid })) := by
  cases h : gridOf problem_size p gdx gdy <;>
    simp [oldIter, h, specializedOf, substParams]

/-- C9: each configuration of a run is compiled from the original,
unmodified kernel template: on a successful run over any configuration
sequence, the source compiled for the i-th configuration is
`specializedOf original kernel_name cᵢ`, a function of that configuration
alone — substitutions and renamings applied for earlier configurations
never reach it (and the incoming state `ks` of the `kernel_string`
variable is irrelevant). -/
theorem C9_specialization_starts_from_original (gpu_args : List GpuArg)
    (problem_size : List Nat) (gdx : List Str) (gdy : Option (List Str))
    (original kernel_name : Str) :
    ∀ (ks : Str) (cs : List Params) (out : Str × List IterRec),
      oldLoop gpu_args problem_size gdx gdy original kernel_name ks cs
        = some out →
      out.2.map (fun r => r.source)
        = cs.map (specializedOf original kernel_name) := by
  intro ks cs
  induction cs generalizing ks with
  | nil =>
    intro out h
    simp only [oldLoop, Option.some.injEq] at h
    rw [← h]
    rfl
  | cons p rest ih =>
    intro out h
    rw [oldLoop, oldIter_eq] at h
    cases hg : gridOf problem_size p gdx gdy with
    | none => rw [hg] at h; simp at h
    | some g =>
      rw [hg] at h
      simp only [Option.map_some', Option.bind_eq_bind,
        Option.some_bind] at h
      cases hrest : oldLoop gpu_args problem_size gdx gdy original
          kernel_name (specializedOf original kernel_name p) rest with
      | none => rw [hrest] at h; simp at h
      | some pr =>
        rw [hrest] at h
        simp only [Option.some_bind, Option.pure_def,
          Option.some.injEq] at h
        rw [← h]
        simp [ih _ _ hrest]

/-- Witness for C9: a two-configuration run; the second compiled source
shows no trace of the first configuration's substitution or renaming. -/
theorem C9_witness :
    [[((("a").data), 1)], [((("a").data), 2)]].map
        (specializedOf (("void k(a)").data) (("k").data))
      = [("void k_1(1)").data, ("void k_2(2)").data] := by
  have h := C9_specialization_starts_from_original [] [4, 1] [] none
    (("void k(a)").data) (("k").data) (("void k(a)").data)
    [[((("a").data), 1)], [((("a").data), 2)]]
    ((("void k_2(2)").data),
      [{ params := [((("a").data), 1)], source := ("void k_1(1)").data,
         name := ("k_1").data, args := [], threads := (256, 1, 1),
         grid := (4, 1) },
       { params := [((("a").data), 2)], source := ("void k_2(2)").data,
         name := ("k_2").data, args := [], threads := (256, 1, 1),
         grid := (4, 1) }])
    (by decide)
  rw [← h]
  decide

/-- The `gpu_args` slot of an argument list, with device addresses counted
from `base`: arrays become consecutive fresh device allocations, anything
else is passed through. -/
def gpuView (base : Nat) : List HostArg → List GpuArg
  | [] => []
  | HostArg.array _ :: rest => GpuArg.devicePtr base :: gpuView (base + 1) rest
  | HostArg.scalar v :: rest => GpuArg.scalar v :: gpuView base rest

/-- The device buffers uploaded for an argument list, in argument order. -/
def arrayDatas : List HostArg → List (List Nat)
  | [] => []
  | HostArg.array d :: rest => d :: arrayDatas rest
  | HostArg.scalar _ :: rest => arrayDatas rest

/-- Closed form of the argument-preparation loop. -/
theorem prepareAux_eq (arguments : List HostArg) :
    ∀ (g : List GpuArg) (m : List (List Nat)),
      prepareAux arguments g m
        = (g ++ gpuView m.length arguments, m ++ arrayDatas arguments) := by
  induction arguments with
  | nil => intro g m; simp [prepareAux, gpuView, arrayDatas]
  | cons a rest ih =>
    intro g m
    cases a with
    | array d =>
      rw [prepareAux, ih]
      simp [gpuView, arrayDatas, List.append_assoc]
    | scalar v =>
      rw [prepareAux, ih]
      simp [gpuView, arrayDatas, List.append_assoc]

/-- Closed form of `prepare`. -/
theorem prepare_eq (arguments : List HostArg) :
    prepare arguments = (gpuView 0 arguments, arrayDatas arguments) := by
  rw [prepare, prepareAux_eq]
  simp

/-- One device buffer per array argument. -/
theorem arrayDatas_length (arguments : List HostArg) :
    (arrayDatas arguments).length = arguments.countP HostArg.isArray := by
  induction arguments with
  | nil => simp [arrayDatas]
  | cons a rest ih =>
    cases a <;> simp [arrayDatas, List.countP_cons, HostArg.isArray, ih]

/-- Scalars are passed through unchanged, at their position. -/
theorem gpuView_scalar (arguments : List HostArg) :
    ∀ (base i : Nat) (v : Int),
      arguments.get? i = some (HostArg.scalar v) →
      (gpuView base arguments).get? i = some (GpuArg.scalar v) := by
  induction arguments with
  | nil => intro base i v h; simp at h
  | cons a rest ih =>
    intro base i v h
    cases a with
    | array d =>
      cases i with
      | zero => simp at h
      | succ i' =>
        simp only [List.get?_cons_succ] at h
        simpa [gpuView] using ih (base + 1) i' v h
    | scalar w =>
      cases i with
      | zero =>
        simp only [List.get?_cons_zero, Option.some.injEq,
          HostArg.scalar.injEq] at h
        simp [gpuView, h]
      | succ i' =>
        simp only [List.get?_cons_succ] at h
        simpa [gpuView] using ih base i' v h

/-- Each array argument gets its own device buffer holding its data. -/
theorem gpuView_array (arguments : List HostArg) :
    ∀ (base i : Nat) (d : List Nat),
      arguments.get? i = some (HostArg.array d) →
      ∃ addr, base ≤ addr ∧
        (gpuView base arguments).get? i = some (GpuArg.devicePtr addr) ∧
        (arrayDatas arguments).get? (addr - base) = some d := by
  induction arguments with
  | nil => intro base i d h; simp at h
  | cons a rest ih =>
    intro base i d h
    cases a with
    | array d0 =>
      cases i with
      | zero =>
        simp only [List.get?_cons_zero, Option.some.injEq,
          HostArg.array.injEq] at h
        exact ⟨base, le_refl base, by simp [gpuView],
          by simp [arrayDatas, h]⟩
      | succ i' =>
        simp only [List.get?_cons_succ] at h
        obtain ⟨addr, hle, hg, hd⟩ := ih (base + 1) i' d h
        refine ⟨addr, by omega, by simpa [gpuView] using hg, ?_⟩
        have heq : addr - base = (addr - (base + 1)) + 1 := by omega
        rw [List.get?_eq_getElem?] at hd
        simp [arrayDatas, heq, hd]
    | scalar w =>
      cases i with
      | zero => simp at h
      | succ i' =>
        simp only [List.get?_cons_succ] at h
        obtain ⟨addr, hle, hg, hd⟩ := ih base i' d h
        exact ⟨addr, hle, by simpa [gpuView] using hg,
          by simpa [arrayDatas] using hd⟩

/-- On a successful run, every launch passes exactly the `gpu_args` the
loop was entered with. -/
theorem oldLoop_args (gpu_args : List GpuArg) (problem_size : List Nat)
    (gdx : List Str) (gdy : Option (List Str)) (original kernel_name : Str) :
    ∀ (ks : Str) (cs : List Params) (out : Str × List IterRec),
      oldLoop gpu_args problem_size gdx gdy original kernel_name ks cs
        = some out →
      ∀ r ∈ out.2, r.args = gpu_args := by
  intro ks cs
  induction cs generalizing ks with
  | nil =>
    intro out h
    simp only [oldLoop, Option.some.injEq] at h
    rw [← h]
    simp
  | cons p rest ih =>
    intro out h
    rw [oldLoop, oldIter_eq] at h
    cases hg : gridOf problem_size p gdx gdy with
    | none => rw [hg] at h; simp at h
    | some g =>
      rw [hg] at h
      simp only [Option.map_some', Option.bind_eq_bind,
        Option.some_bind] at h
      cases hrest : oldLoop gpu_args problem_size gdx gdy original
          kernel_name (specializedOf original kernel_name p) rest with
      | none => rw [hrest] at h; simp at h
      | some pr =>
        rw [hrest] at h
        simp only [Option.some_bind, Option.pure_def,
          Option.some.injEq] at h
        rw [← h]
        intro r hr
        simp only [List.mem_cons] at hr
        cases hr with
        | inl hr => rw [hr]
        | inr hr => exact ih _ _ hrest r hr

/-- Closed form of `oldTuneKernel`: the pre-loop preparation fixes
`gpu_args` and the device memory; the loop only produces the records. -/
theorem oldTuneKernel_eq (kernel_name original : Str)
    (problem_size : List Nat) (arguments : List HostArg) (tp : TuneParams)
    (gdx : List Str) (gdy : Option (List Str)) :
    oldTuneKernel kernel_name original problem_size arguments tp gdx gdy
      = (oldLoop (prepare arguments).1 problem_size gdx gdy original
          kernel_name original (expand tp)).map
        (fun pr => (pr.2, (prepare arguments).1, (prepare arguments).2)) := by
  rw [oldTuneKernel]
  rcases prepare arguments with ⟨ga, m⟩
  rcases hl : oldLoop ga problem_size gdx gdy original kernel_name original
      (expand tp) with _ | ⟨ksF, rs⟩ <;> simp [hl]

/-- C10: kernel arguments are prepared exactly once, before the loop: on a
successful run, the returned `gpu_args` and device memory are exactly what
the pre-loop preparation built (the loop allocates and uploads nothing),
every launch receives that same `gpu_args` list, the number of device
buffers equals the number of arguments with an `nbytes` attribute, each
scalar argument sits unchanged at its position, and each array argument is
a device buffer holding that array's data. -/
theorem C10_arguments_prepared_once (kernel_name original : Str)
    (problem_size : List Nat) (arguments : List HostArg) (tp : TuneParams)
    (gdx : List Str) (gdy : Option (List Str))
    (recs : List IterRec) (gargs : List GpuArg) (mem : List (List Nat))
    (h : oldTuneKernel kernel_name original problem_size arguments tp gdx gdy
      = some (recs, gargs, mem)) :
    gargs = (prepare arguments).1 ∧
    mem = (prepare arguments).2 ∧
    (∀ r ∈ recs, r.args = (prepare arguments).1) ∧
    mem.length = arguments.countP HostArg.isArray ∧
    (∀ i v, arguments.get? i = some (HostArg.scalar v) →
      gargs.get? i = some (GpuArg.scalar v)) ∧
    (∀ i d, arguments.get? i = some (HostArg.array d) →
      ∃ addr, gargs.get? i = some (GpuArg.devicePtr addr) ∧
        mem.get? addr = some d) := by
  rw [oldTuneKernel_eq, Option.map_eq_some'] at h
  obtain ⟨pr, hl, heq⟩ := h
  rw [Prod.mk.injEq, Prod.mk.injEq] at heq
  obtain ⟨hrecs, hgargs, hmem⟩ := heq
  subst hrecs; subst hgargs; subst hmem
  refine ⟨rfl, rfl, ?_, ?_, ?_, ?_⟩
  · intro r hr
    exact oldLoop_args _ _ _ _ _ _ _ _ _ hl r hr
  · rw [prepare_eq]
    exact arrayDatas_length arguments
  · intro i v hv
    rw [prepare_eq]
    exact gpuView_scalar arguments 0 i v hv
  · intro i d hd
    rw [prepare_eq]
    obtain ⟨addr, _, hg, hmm⟩ := gpuView_array arguments 0 i d hd
    exact ⟨addr, hg, by simpa using hmm⟩

/-- Witness for C10: one scalar and one array argument, one
configuration. -/
theorem C10_witness :
    ((prepare [HostArg.scalar 3, HostArg.array [7, 7]]).1
        = [GpuArg.scalar 3, GpuArg.devicePtr 0]) ∧
    ({ params := [((("a").data), 2)], source := ("k_2(2)").data,
       name := ("k_2").data,
       args := [GpuArg.scalar 3, GpuArg.devicePtr 0],
       threads := (256, 1, 1), grid := (4, 1) } : IterRec).args
      = (prepare [HostArg.scalar 3, HostArg.array [7, 7]]).1 := by
  have h := C10_arguments_prepared_once (("k").data) (("k(a)").data) [4, 1]
    [HostArg.scalar 3, HostArg.array [7, 7]] [((("a").data), [2])] [] none
    [{ params := [((("a").data), 2)], source := ("k_2(2)").data,
       name := ("k_2").data,
       args := [GpuArg.scalar 3, GpuArg.devicePtr 0],
       threads := (256, 1, 1), grid := (4, 1) }]
    [GpuArg.scalar 3, GpuArg.devicePtr 0] [[7, 7]] (by decide)
  exact ⟨h.1.symm, h.2.2.1 _ (by simp)⟩

/-! ## C2, C4, C7: the skip-tolerant driver -/

/-- The driver loop in closed form: the report lists exactly the
configurations that compiled and ran, in enumeration order, and the
backend's compiler is handed exactly the configurations whose geometry
computed. -/
theorem runConfigs_eq (ctx : DriverCtx) (cs : List Params) :
    runConfigs ctx cs
      = ((cs.filter (succeedsB ctx)).map (resultOf ctx),
         cs.filter (geomOkB ctx)) := by
  induction cs with
  | nil => rfl
  | cons c rest ih =>
    rw [runConfigs, ih]
    cases hg : gridOf ctx.problem_size c ctx.grid_div_x ctx.grid_div_y with
    | none => simp [succeedsB, geomOkB, hg, List.filter_cons]
    | some grid =>
      cases hc : ctx.backend.compile (mkName ctx.kernel_name c)
          (specializedOf ctx.original ctx.kernel_name c) with
      | error e =>
        simp [succeedsB, geomOkB, hg, hc, List.filter_cons]
      | ok hdl =>
        cases hb : ctx.backend.benchmark hdl (threadsOf c) grid with
        | error e =>
          simp [succeedsB, geomOkB, hg, hc, hb, List.filter_cons]
        | ok t =>
          simp [succeedsB, geomOkB, resultOf, timeOf, hg, hc, hb,
            List.filter_cons]

/-- A configuration rejected by the backend compiler does not succeed. -/
theorem succeedsB_eq_false_of_compileFails (ctx : DriverCtx) (c : Params)
    (h : compileFailsB ctx c = true) : succeedsB ctx c = false := by
  rw [compileFailsB] at h
  rw [succeedsB]
  cases hg : gridOf ctx.problem_size c ctx.grid_div_x ctx.grid_div_y with
  | none => rfl
  | some grid =>
    rw [hg] at h
    cases hc : ctx.backend.compile (mkName ctx.kernel_name c)
        (specializedOf ctx.original ctx.kernel_name c) with
    | error e => rfl
    | ok hdl => rw [hc] at h; cases h

/-- A configuration rejected by the backend compiler had computed its
geometry (it was handed to the compiler). -/
theorem geomOkB_eq_true_of_compileFails (ctx : DriverCtx) (c : Params)
    (h : compileFailsB ctx c = true) : geomOkB ctx c = true := by
  rw [compileFailsB] at h
  rw [geomOkB]
  cases hg : gridOf ctx.problem_size c ctx.grid_div_x ctx.grid_div_y with
  | none => rw [hg] at h; cases h
  | some grid => rfl

/-- A successful configuration had computed its geometry. -/
theorem geomOkB_eq_true_of_succeeds (ctx : DriverCtx) (c : Params)
    (h : succeedsB ctx c = true) : geomOkB ctx c = true := by
  rw [succeedsB] at h
  rw [geomOkB]
  cases hg : gridOf ctx.problem_size c ctx.grid_div_x ctx.grid_div_y with
  | none => rw [hg] at h; cases h
  | some grid => rfl

/-- Filtering a list in which exactly the j-th position fails the
predicate drops exactly that position. -/
theorem filter_length_of_one_false {α : Type} (p : α → Bool) :
    ∀ (cs : List α) (j : Nat) (hj : j < cs.length),
      p cs[j] = false →
      (∀ i, (hi : i < cs.length) → i ≠ j → p cs[i] = true) →
      (cs.filter p).length = cs.length - 1 ∧
        ∀ x ∈ cs.filter p, x ≠ cs[j] := by
  intro cs
  induction cs with
  | nil => intro j hj; simp at hj
  | cons c rest ih =>
    intro j hj hfail hrest
    cases j with
    | zero =>
      simp only [List.getElem_cons_zero] at hfail ⊢
      have hall : ∀ x ∈ rest, p x = true := by
        intro x hx
        obtain ⟨i, hi, rfl⟩ := List.mem_iff_getElem.mp hx
        have h := hrest (i + 1) (by simpa using Nat.succ_lt_succ hi)
          (by omega)
        simpa using h
      have hfil : rest.filter p = rest := List.filter_eq_self.mpr hall
      rw [List.filter_cons]
      simp only [hfail, Bool.false_eq_true, if_false, hfil]
      refine ⟨by simp, ?_⟩
      intro x hx heq
      have hpx := hall x hx
      rw [heq, hfail] at hpx
      cases hpx
    | succ k =>
      have hc : p c = true := by
        have h := hrest 0 (by simp) (by omega)
        simpa using h
      simp only [List.getElem_cons_succ] at hfail ⊢
      have hj' : k < rest.length := by simpa using hj
      obtain ⟨hlen, hmem⟩ := ih k hj' hfail (by
        intro i hi hne
        have h := hrest (i + 1) (by simpa using Nat.succ_lt_succ hi)
          (by omega)
        simpa using h)
      rw [List.filter_cons]
      simp only [hc, if_true]
      constructor
      · simp only [List.length_cons, hlen]
        omega
      · intro x hx
        simp only [List.mem_cons] at hx
        cases hx with
        | inl hx =>
          intro heq
          rw [← heq, hx, hc] at hfail
          cases hfail
        | inr hx => exact hmem x hx

/-- C2: if the backend's compile step fails for exactly one of the N valid
configurations (and every other one compiles and runs), the driver records
a skip and continues: the report has exactly N − 1 entries, the failing
configuration is absent from it, and every valid configuration — the
failing one included — was still handed to the backend (the run is not
terminated). -/
theorem C2_single_compile_failure_is_skipped (ctx : DriverCtx)
    (tp : TuneParams) (restrictions : List Restriction) (j : Nat)
    (hj : j < (validConfigs tp restrictions).length)
    (hfail : compileFailsB ctx (validConfigs tp restrictions)[j] = true)
    (hrest : ∀ i, (hi : i < (validConfigs tp restrictions).length) →
      i ≠ j → succeedsB ctx (validConfigs tp restrictions)[i] = true) :
    (tuneDriver ctx tp restrictions).1.length
        = (validConfigs tp restrictions).length - 1 ∧
    (validConfigs tp restrictions)[j] ∉
        (tuneDriver ctx tp restrictions).1.map
          (fun r => r.config) ∧
    (tuneDriver ctx tp restrictions).2 = validConfigs tp restrictions := by
  have hsf : succeedsB ctx (validConfigs tp restrictions)[j] = false :=
    succeedsB_eq_false_of_compileFails ctx _ hfail
  obtain ⟨hlen, hmem⟩ := filter_length_of_one_false (succeedsB ctx)
    (validConfigs tp restrictions) j hj hsf hrest
  rw [tuneDriver, runConfigs_eq]
  refine ⟨by simpa using hlen, ?_, ?_⟩
  · rw [List.map_map]
    have hcomp : ((fun r => BenchmarkResult.config r) ∘ resultOf ctx)
        = fun c => c := funext fun c => rfl
    rw [hcomp, List.map_id']
    intro hmem'
    exact (hmem _ hmem') rfl
  · apply List.filter_eq_self.mpr
    intro x hx
    obtain ⟨i, hi, rfl⟩ := List.mem_iff_getElem.mp hx
    by_cases hij : i = j
    · subst hij
      exact geomOkB_eq_true_of_compileFails ctx _ hfail
    · exact geomOkB_eq_true_of_succeeds ctx _ (hrest i hi hij)

/-- Backend of the C2 witness: compilation fails exactly for the kernel
name derived from the second configuration. -/
def c2Backend : Backend where
  compile := fun name _ =>
    if name = ("k_2").data then Except.error (("boom").data)
    else Except.ok 0
  benchmark := fun _ _ _ => Except.ok 5

/-- Driver context of the C2 witness. -/
def c2Ctx : DriverCtx where
  backend := c2Backend
  kernel_name := ("k").data
  original := ("k()").data
  problem_size := [4, 1]
  grid_div_x := []
  grid_div_y := none

/-- Parameter space of the C2 witness: three configurations. -/
def c2Tp : TuneParams := [((("a").data), [1, 2, 3])]

/-- Witness for C2: with 3 valid configurations of which exactly the
second fails to compile, the report has 2 entries. -/
theorem C2_witness :
    (tuneDriver c2Ctx c2Tp []).1.length
        = (validConfigs c2Tp []).length - 1 ∧
    (validConfigs c2Tp []).length = 3 :=
  ⟨(C2_single_compile_failure_is_skipped c2Ctx c2Tp [] 1 (by decide)
      (by decide) (by decide)).1, by decide⟩

/-- C4: a configuration for which some restriction evaluates false is
never handed to the device backend — everything the backend's compiler
receives comes from the expanded space and satisfies every restriction. -/
theorem C4_restrictions_prune_before_compilation (ctx : DriverCtx)
    (tp : TuneParams) (restrictions : List Restriction) :
    ∀ c ∈ (tuneDriver ctx tp restrictions).2,
      c ∈ expand tp ∧ ∀ r ∈ restrictions, r c = true := by
  intro c hc
  rw [tuneDriver, runConfigs_eq] at hc
  have hc' : c ∈ validConfigs tp restrictions :=
    List.mem_of_mem_filter hc
  rw [validConfigs] at hc'
  refine ⟨List.mem_of_mem_filter hc', ?_⟩
  have hall := List.of_mem_filter hc'
  intro r hr
  exact List.all_eq_true.mp hall r hr

/-- First restriction of the C4 witness: `block_size_x > 128`. -/
def c4R1 : Restriction := fun c => decide (128 < Params.getD c bsxKey 0)

/-- Second restriction of the C4 witness: `block_size_x < 512`. -/
def c4R2 : Restriction := fun c => decide (Params.getD c bsxKey 0 < 512)

/-- Driver context of the C4 witness: a backend that accepts anything. -/
def c4Ctx : DriverCtx where
  backend :=
    { compile := fun _ _ => Except.ok 0,
      benchmark := fun _ _ _ => Except.ok 1 }
  kernel_name := ("fake_kernel").data
  original := ("fake_kernel").data
  problem_size := [1, 1]
  grid_div_x := []
  grid_div_y := none

/-- Parameter space of the C4 witness: `block_size_x ∈ {128, 256, 512}`. -/
def c4Tp : TuneParams := [(bsxKey, [128, 256, 512])]

/-- Witness for C4, the spec's example: of `block_size_x ∈ {128, 256,
512}` under `block_size_x > 128` and `block_size_x < 512`, exactly the
configuration `block_size_x = 256` reaches compilation, and it satisfies
both restrictions. -/
theorem C4_witness :
    (tuneDriver c4Ctx c4Tp [c4R1, c4R2]).2 = [[(bsxKey, 256)]] ∧
    ∀ r ∈ [c4R1, c4R2], r [(bsxKey, 256)] = true :=
  ⟨by decide, fun r hr =>
    (C4_restrictions_prune_before_compilation c4Ctx c4Tp [c4R1, c4R2]
      [(bsxKey, 256)] (by decide)).2 r hr⟩

/-- C7: the driver returns a report with one entry — configuration,
measured time and compiled kernel name — for every configuration that
compiled and ran, in order; when every configuration is skipped it returns
the empty report (the driver is a total function: no error escapes). -/
theorem C7_report_lists_exactly_successes (ctx : DriverCtx)
    (tp : TuneParams) (restrictions : List Restriction) :
    (tuneDriver ctx tp restrictions).1
        = ((validConfigs tp restrictions).filter (succeedsB ctx)).map
          (resultOf ctx) ∧
    ((∀ c ∈ validConfigs tp restrictions, succeedsB ctx c = false) →
      (tuneDriver ctx tp restrictions).1 = []) := by
  constructor
  · rw [tuneDriver, runConfigs_eq]
  · intro hall
    rw [tuneDriver, runConfigs_eq]
    have hfil : (validConfigs tp restrictions).filter (succeedsB ctx)
        = [] := by
      rw [List.filter_eq_nil_iff]
      intro a ha
      simp [hall a ha]
    rw [hfil]
    rfl

/-- Driver context of the C7 witness: a backend whose compiler rejects
everything. -/
def c7Ctx : DriverCtx where
  backend :=
    { compile := fun _ _ => Except.error (("nope").data),
      benchmark := fun _ _ _ => Except.ok 1 }
  kernel_name := ("k").data
  original := ("k()").data
  problem_size := [4, 1]
  grid_div_x := []
  grid_div_y := none

/-- Witness for C7: a run in which every configuration is skipped returns
the empty report. -/
theorem C7_witness : (tuneDriver c7Ctx [((("a").data), [1, 2])] []).1 = [] :=
  (C7_report_lists_exactly_successes c7Ctx [((("a").data), [1, 2])] []).2
    (by decide)

end KernelTuner
